import Mathlib

/-!
Verification of the embeddings repository: a shallow embedding of
`embeddings/metric/hugging_face_metric.py` and
`embeddings/model/lightning_module/{lightning_module,huggingface_module}.py`,
with theorems settling the behavioural claims about the metric adapter and
the lightning-module wrapper.

Modelling conventions:
* Python dictionaries become association lists `List (String × V)`; `dictGet`
  is `dict.get`-style lookup (first matching key wins, like a Python dict with
  unique keys).
* Python exceptions become an explicit `PyError` value: a function that can
  raise returns `Except PyError _`, or a pair carrying an `Option PyError`
  when the original code mutates state before raising.
* Python `float` arithmetic in `setup` is IEEE-754 binary64: every float
  value is the exact rational it denotes, and each operation is the exact
  rational result rounded to 53 significand bits with round-to-nearest,
  ties-to-even (`rnd53`); `int(x)` (truncation toward zero) is `pyInt`.
-/

namespace Embeddings

/-- Python exception kinds raised or caught by the code under verification. -/
inductive PyError where
  | typeError
  | attributeError
  | valueError (msg : String)
  | indexError
  | assertionError
  | keyError
  deriving DecidableEq

/-- A value stored in a metric result dictionary (floats modelled as `ℚ`). -/
inductive MVal where
  | num (q : ℚ)
  | other
  deriving DecidableEq

/-- The Python value returned by the wrapped metric's `compute`: either a
`Dict` (so the `assert isinstance(result, Dict)` passes) or something else. -/
inductive PyVal where
  | dict (entries : List (String × MVal))
  | nonDict
  deriving DecidableEq

/-- Outcome of one call into the wrapped metric's `compute`: it either
returns a value or raises an exception. -/
inductive DelegateOutcome where
  | ret (v : PyVal)
  | raise (e : PyError)
  deriving DecidableEq

/-- Python `dict` lookup on an association list: the first binding of the key
wins. -/
def dictGet {V : Type} : List (String × V) → String → Option V
  | [], _ => none
  | (k, v) :: rest, key => if k = key then some v else dictGet rest key

/-- `init_kwargs.get("process_id", 0)` in `HuggingFaceMetric.__init__`. -/
def initKwargsGetProcessId (init_kwargs : List (String × Int)) : Int :=
  match dictGet init_kwargs "process_id" with
  | some v => v
  | none => 0

/-- The message of the `ValueError` raised by `HuggingFaceMetric.__init__`
for a non-primary process. -/
def invalidProcessMsg : String :=
  "Metric computation should be run on the main process. Otherwise it would not return results in dict."

/-- The process-id validation performed by `HuggingFaceMetric.__init__`
(source: `hugging_face_metric.py`, `if init_kwargs.get("process_id", 0) != 0:
raise ValueError(...)`). `.ok ()` means the check passed and construction
proceeds to loading the metric. -/
def HuggingFaceMetric.init_process_check (init_kwargs : List (String × Int)) :
    Except PyError Unit :=
  if initKwargsGetProcessId init_kwargs ≠ 0 then
    .error (.valueError invalidProcessMsg)
  else
    .ok ()

/-- Assembling the keyword arguments of the call
`self.metric.compute(references=y_true, predictions=y_pred,
**self.compute_kwargs, **kwargs)`. Python raises `TypeError` at the call
site when the same keyword is supplied twice: when `compute_kwargs` and
`kwargs` share a key, or when either contains the explicitly passed
keywords `references` / `predictions`. Otherwise the two mappings are
concatenated in that order. -/
def mergeKwargs {V : Type} (compute_kwargs kwargs : List (String × V)) :
    Except PyError (List (String × V)) :=
  if compute_kwargs.any fun p =>
      p.1 == "references" || p.1 == "predictions" || (dictGet kwargs p.1).isSome then
    .error .typeError
  else if kwargs.any fun p => p.1 == "references" || p.1 == "predictions" then
    .error .typeError
  else
    .ok (compute_kwargs ++ kwargs)

/-- The body of the `try` block of `HuggingFaceMetric.compute` after the
delegate call returns or raises: a returned `Dict` passes the `assert` and is
returned unchanged, a returned non-dict fails the `assert`
(`AssertionError`, not caught), a raised `AttributeError` or `ValueError` is
caught and converted to the sentinel `{self.metric.name: -1.0}`, and any
other exception propagates. -/
def handleDelegateOutcome (metricName : String) :
    DelegateOutcome → Except PyError (List (String × MVal))
  | .ret (.dict d) => .ok d
  | .ret .nonDict => .error .assertionError
  | .raise .attributeError => .ok [(metricName, .num (-1))]
  | .raise (.valueError _) => .ok [(metricName, .num (-1))]
  | .raise e => .error e

/-- `HuggingFaceMetric.compute` (source: `hugging_face_metric.py`). The
wrapped metric is abstracted as `delegate`, a function of the references,
the predictions and the merged keyword options; `I` is the type of metric
inputs and `V` the type of option values. -/
def HuggingFaceMetric.compute {I V : Type} (metricName : String)
    (delegate : Option I → Option I → List (String × V) → DelegateOutcome)
    (compute_kwargs : List (String × V))
    (y_true y_pred : Option I) (kwargs : List (String × V)) :
    Except PyError (List (String × MVal)) :=
  match mergeKwargs compute_kwargs kwargs with
  | .error e => .error e
  | .ok merged => handleDelegateOutcome metricName (delegate y_true y_pred merged)

/-! ### Layer freezing (`huggingface_module.py`, `freeze_transformer`) -/

/-- Python `sys.maxsize` on a 64-bit platform (`2 ^ 63 - 1`), the layer
index assigned to `pooler*` parameters. -/
def sysMaxsize : Int := 9223372036854775807

/-- Python `str.startswith(stem)`. -/
def strStartsWith (s stem : String) : Bool := stem.data.isPrefixOf s.data

/-- Splitting a character list on `.` separators (empty segments kept),
the behaviour of Python `str.split(".")`. -/
def splitDotChars : List Char → List (List Char)
  | [] => [[]]
  | c :: rest =>
    let r := splitDotChars rest
    if c = '.' then [] :: r
    else
      match r with
      | [] => [[c]]
      | seg :: segs => (c :: seg) :: segs

/-- Python `name.split(".")`. -/
def splitDot (s : String) : List String := (splitDotChars s.data).map String.mk

/-- Decimal-digit accumulator for `int(...)`. -/
def digitsAux : List Char → Nat → Option Nat
  | [], acc => some acc
  | c :: rest, acc =>
    if c.isDigit then digitsAux rest (acc * 10 + (c.toNat - 48)) else none

/-- Python `int(s)` on a plain optionally-signed decimal literal; `none`
models the `ValueError` int raises on anything else. (Python additionally
strips whitespace and accepts digit-group underscores, which never occur
in parameter names.) -/
def parseInt (s : String) : Option Int :=
  match s.data with
  | [] => none
  | '-' :: rest =>
    match rest with
    | [] => none
    | _ => (digitsAux rest 0).map fun n => -(n : Int)
  | '+' :: rest =>
    match rest with
    | [] => none
    | _ => (digitsAux rest 0).map fun n => (n : Int)
  | cs => (digitsAux cs 0).map fun n => (n : Int)

/-- One named parameter of the base model, with its `requires_grad` flag. -/
structure Param where
  name : String
  requires_grad : Bool
  deriving DecidableEq

/-- The message of the `ValueError` raised on an unrecognized parameter
name. -/
def unrecognizedMsg : String := "Parameter name not recognized when freezing transformer"

/-- The message of the `ValueError` raised by `int(...)` on a non-numeric
layer segment (the Python message also carries the offending literal; the
model keeps a fixed message, distinct from `unrecognizedMsg`). -/
def intParseMsg : String := "invalid literal for int with base 10"

/-- The layer classification of one parameter name inside the
`freeze_transformer` loop: `embeddings*` is layer 0, `encoder*` parses the
third dot-separated segment (`int(name.split(".")[2])`, which can raise
`IndexError` or `ValueError`), `pooler*` is `sys.maxsize`, and anything
else raises `ValueError` with `unrecognizedMsg`. -/
def layerOf (name : String) : Except PyError Int :=
  if strStartsWith name "embeddings" then .ok 0
  else if strStartsWith name "encoder" then
    match (splitDot name)[2]? with
    | none => .error .indexError
    | some seg =>
      match parseInt seg with
      | some i => .ok i
      | none => .error (.valueError intParseMsg)
  else if strStartsWith name "pooler" then .ok sysMaxsize
  else .error (.valueError unrecognizedMsg)

/-- A parameter name none of the three recognized name stems matches. -/
def unrecognizedName (name : String) : Bool :=
  !(strStartsWith name "embeddings" || strStartsWith name "encoder" ||
    strStartsWith name "pooler")

/-- The `for name, param in ... named_parameters()` loop of
`freeze_transformer` for `finetune_last_n_layers != 0`, with
`threshold = no_layers - finetune_last_n_layers`. Returns the parameter
list after the loop together with the exception the loop raised, if any;
parameters visited before a raise keep their mutated (frozen) flags, and a
parameter whose layer reaches the threshold stops the loop (`break`)
leaving it and all later parameters untouched. -/
def freezeLoop (threshold : Int) : List Param → List Param × Option PyError
  | [] => ([], none)
  | p :: ps =>
    match layerOf p.name with
    | .error e => (p :: ps, some e)
    | .ok layer =>
      if threshold ≤ layer then (p :: ps, none)
      else
        let r := freezeLoop threshold ps
        ({ p with requires_grad := false } :: r.1, r.2)

/-- `HuggingFaceLightningModule.freeze_transformer`: for
`finetune_last_n_layers == 0` every base-model parameter's gradient is
disabled; otherwise the loop `freezeLoop` runs with threshold
`num_hidden_layers - finetune_last_n_layers`. -/
def HuggingFaceLightningModule.freeze_transformer
    (num_hidden_layers finetune_last_n_layers : Int) (params : List Param) :
    List Param × Option PyError :=
  if finetune_last_n_layers = 0 then
    (params.map fun p => { p with requires_grad := false }, none)
  else
    freezeLoop (num_hidden_layers - finetune_last_n_layers) params

/-- One parameter classifies to a layer index strictly below the
threshold. -/
def layerBelow (threshold : Int) (p : Param) : Bool :=
  match layerOf p.name with
  | .ok l => decide (l < threshold)
  | .error _ => false

/-- Decidable statement that every one of the first `i + 1` parameters
classifies to a layer index strictly below the threshold — exactly the
condition under which the parameter at position `i` gets frozen by
`freezeLoop`. -/
def frozenBelow (threshold : Int) (params : List Param) (i : Nat) : Bool :=
  (params.take (i + 1)).all (layerBelow threshold)

/-! ### Forward (`huggingface_module.py`, `forward`) -/

/-- Value lookup of `dict(ChainMap(*inputs))`: `ChainMap` searches its maps
left to right, so the first dictionary containing the key supplies the
value. -/
def chainLookup {V : Type} : List (List (String × V)) → String → Option V
  | [], _ => none
  | d :: ds, k =>
    match dictGet d k with
    | some v => some v
    | none => chainLookup ds k

/-- `HuggingFaceLightningModule.forward`: the model is abstracted as a
function `model` of the keyword mapping it is called with
(`self.model(**inputs)`). The `assert (not (args and kwargs)) and
(args or kwargs)` fails when both or neither argument collection is
non-empty; keyword inputs are passed through unchanged, and positional
inputs are merged by `dict(ChainMap(*inputs))`. -/
def HuggingFaceLightningModule.forward {V M : Type} (model : (String → Option V) → M)
    (args : List (List (String × V))) (kwargs : List (String × V)) :
    Except PyError M :=
  match args, kwargs with
  | [], [] => .error .assertionError
  | _ :: _, _ :: _ => .error .assertionError
  | [], kw => .ok (model (dictGet kw))
  | posArgs, [] => .ok (model (chainLookup posArgs))

/-! ### Scheduler step count (`huggingface_module.py`, `setup`)

Python computes `total_steps` with IEEE-754 binary64 (`float`) arithmetic.
The value of a binary64 number is an exact rational, so floats are modelled
as the rationals they denote and every float operation as the exact rational
operation followed by `rnd53`, rounding to 53 significand bits with
round-to-nearest, ties-to-even — the IEEE-754 rule. (Overflow to infinity
and the reduced precision of subnormals, which arise only for magnitudes
beyond `2^1024` and below `2^-1022`, are outside the operating range of
this code and are not modelled.) -/

/-- Round a rational to the nearest integer, ties to the even integer —
the final rounding step of an IEEE-754 operation on the scaled
significand. -/
def roundTiesEven (s : ℚ) : ℤ :=
  if s - ⌊s⌋ < 1/2 then ⌊s⌋
  else if 1/2 < s - ⌊s⌋ then ⌊s⌋ + 1
  else if ⌊s⌋ % 2 = 0 then ⌊s⌋ else ⌊s⌋ + 1

/-- Round a positive rational to 53 significand bits: scale into
`[2^52, 2^53)` using the binary exponent `Int.log 2 q`, round to nearest
ties-even, and scale back. -/
def rnd53pos (q : ℚ) : ℚ :=
  (roundTiesEven (q * 2 ^ (52 - Int.log 2 q)) : ℚ) * 2 ^ (Int.log 2 q - 52)

/-- IEEE-754 binary64 rounding (round to nearest, ties to even) of a
rational value. -/
def rnd53 (q : ℚ) : ℚ :=
  if q = 0 then 0
  else if q < 0 then -rnd53pos (-q)
  else rnd53pos q

/-- Python float division (correctly rounded, also for int/int true
division, which CPython rounds correctly): the exact quotient, rounded. -/
def fpDiv (x y : ℚ) : ℚ := rnd53 (x / y)

/-- Python float multiplication: the exact product, rounded. -/
def fpMul (x y : ℚ) : ℚ := rnd53 (x * y)

/-- Python `int(x)` on a float/rational: truncation toward zero. -/
def pyInt (q : ℚ) : Int := if q < 0 then ⌈q⌉ else ⌊q⌋

/-- The `total_steps` computation in `HuggingFaceLightningModule.setup` for
the fit stage with `use_scheduler` set:
`tb_size = train_batch_size * max(1, num_devices)`,
`ab_size = tb_size * accumulate_grad_batches`,
`total_steps = int((len(dataset) / ab_size) * float(max_epochs))`.
The division and multiplication are binary64 float operations
(`len(dataset)` and `ab_size` are exact ints, their true division rounds;
`float(max_epochs)` rounds the int to a float; the product rounds again). -/
def HuggingFaceLightningModule.setup_total_steps
    (datasetSize train_batch_size num_devices accumulate_grad_batches max_epochs : ℕ) :
    Int :=
  let tb_size : ℕ := train_batch_size * max 1 num_devices
  let ab_size : ℕ := tb_size * accumulate_grad_batches
  pyInt (fpMul (fpDiv (datasetSize : ℚ) (ab_size : ℚ)) (rnd53 (max_epochs : ℚ)))

/-! ### Default metrics (`lightning_module.py`, `get_default_metrics`) -/

/-- The torchmetrics classes instantiated by `get_default_metrics`. -/
inductive MetricFamily where
  | F1Score
  | Precision
  | Recall
  | Accuracy
  deriving DecidableEq

/-- The `task` argument of a torchmetrics constructor call. -/
inductive TaskKind where
  | binary
  | multiclass
  deriving DecidableEq

/-- One constructed metric: the class, its task, its class count and its
`average` argument (when given). -/
structure MetricEntry where
  family : MetricFamily
  task : TaskKind
  num_classes : Int
  average : Option String
  deriving DecidableEq

/-- `LightningModule.get_default_metrics` (source: `lightning_module.py`):
for each of F1Score/Precision/Recall, a binary variant when
`num_labels <= 2` and micro/macro multiclass variants always; then a
multiclass Accuracy, and a binary Accuracy when `num_labels <= 2`. The
returned value models the dictionary handed to `MetricCollection`. -/
def LightningModule.get_default_metrics (num_labels : Int) :
    List (String × MetricEntry) :=
  ([(MetricFamily.F1Score, "f1"), (MetricFamily.Precision, "precision"),
    (MetricFamily.Recall, "recall")].flatMap fun fm =>
      (if num_labels ≤ 2 then
        [(fm.2 ++ "_binary", ⟨fm.1, .binary, num_labels, none⟩)]
      else []) ++
      (["micro", "macro"].map fun avg =>
        (fm.2 ++ "_" ++ avg, ⟨fm.1, .multiclass, num_labels, some avg⟩)))
  ++ [("acc", ⟨.Accuracy, .multiclass, num_labels, none⟩)]
  ++ (if num_labels ≤ 2 then
        [("acc_binary", ⟨.Accuracy, .binary, num_labels, none⟩)]
      else [])

/-! ### Checkpoint hooks (`huggingface_module.py`) -/

/-- A value stored in the checkpoint mapping: the label-name list written by
the save hook, or any other entry owned by the training engine. -/
inductive CkptVal where
  | names (l : List String)
  | otherVal
  deriving DecidableEq

/-- Python `dict` assignment `d[k] = v` on an association list: replaces
the first binding of `k` in place, or appends a new binding. -/
def dictSet {V : Type} : List (String × V) → String → V → List (String × V)
  | [], k, v => [(k, v)]
  | (k', v') :: rest, k, v =>
    if k' = k then (k, v) :: rest else (k', v') :: dictSet rest k v

/-- `HuggingFaceLightningModule.on_save_checkpoint`: writes the data
module's ordered label-name list under the key `target_names`. -/
def HuggingFaceLightningModule.on_save_checkpoint (target_names : List String)
    (checkpoint : List (String × CkptVal)) : List (String × CkptVal) :=
  dictSet checkpoint "target_names" (.names target_names)

/-- `HuggingFaceLightningModule.on_load_checkpoint`: reads
`checkpoint["target_names"]` into `self.target_names`; a missing key is a
`KeyError`. -/
def HuggingFaceLightningModule.on_load_checkpoint
    (checkpoint : List (String × CkptVal)) : Except PyError CkptVal :=
  match dictGet checkpoint "target_names" with
  | some v => .ok v
  | none => .error .keyError

/-! ### Concrete sample data used by witness theorems -/

/-- A small BERT-like parameter list (4 hidden layers). -/
def demoParams : List Param :=
  [⟨"embeddings.word_embeddings.weight", true⟩,
   ⟨"encoder.layer.0.attention.self.query.weight", true⟩,
   ⟨"encoder.layer.2.output.dense.weight", true⟩,
   ⟨"encoder.layer.3.output.dense.weight", true⟩,
   ⟨"pooler.dense.weight", true⟩]

/-- A delegate metric whose `compute` raises `ValueError` on every input
(e.g. a shape mismatch). -/
def demoDelegateRaise : Option Unit → Option Unit → List (String × Unit) → DelegateOutcome :=
  fun _ _ _ => .raise (.valueError "mismatch in the number of predicted samples")

/-- A delegate metric whose `compute` always returns the dictionary
`{accuracy: 1}`. -/
def demoDelegateDict : Option Unit → Option Unit → List (String × Unit) → DelegateOutcome :=
  fun _ _ _ => .ret (.dict [("accuracy", .num 1)])

/-! ### Helper lemmas -/

/-- Looking a key up right after setting it yields the set value. -/
theorem dictGet_dictSet_self {V : Type} (d : List (String × V)) (k : String) (v : V) :
    dictGet (dictSet d k v) k = some v := by
  induction d with
  | nil => simp [dictSet, dictGet]
  | cons p rest ih =>
    obtain ⟨k', v'⟩ := p
    by_cases h : k' = k
    · simp [dictSet, dictGet, h]
    · simp [dictSet, dictGet, h, ih]

/-- `dictGet` finds a value exactly when some binding carries the key. -/
theorem dictGet_isSome_iff {V : Type} (d : List (String × V)) (k : String) :
    (dictGet d k).isSome = true ↔ ∃ p ∈ d, p.1 = k := by
  induction d with
  | nil => simp [dictGet]
  | cons p rest ih =>
    obtain ⟨k', v'⟩ := p
    by_cases h : k' = k
    · simp [dictGet, h]
    · simp [dictGet, h, ih]

/-- A name the classification succeeds on is a recognized name. -/
theorem layerOf_ok_recognized (nm : String) (l : Int) (h : layerOf nm = .ok l) :
    unrecognizedName nm = false := by
  unfold layerOf at h
  unfold unrecognizedName
  by_cases h1 : strStartsWith nm "embeddings" <;>
    by_cases h2 : strStartsWith nm "encoder" <;>
      by_cases h3 : strStartsWith nm "pooler" <;>
        simp_all

/-- The classification raises the unrecognized-parameter `ValueError`
exactly on names outside the three recognized stems. -/
theorem layerOf_error_unrecognized_iff (nm : String) :
    layerOf nm = .error (.valueError unrecognizedMsg) ↔ unrecognizedName nm = true := by
  unfold layerOf unrecognizedName
  by_cases h1 : strStartsWith nm "embeddings" <;>
    by_cases h2 : strStartsWith nm "encoder" <;>
      by_cases h3 : strStartsWith nm "pooler" <;>
        simp_all
  all_goals
    cases hseg : (splitDot nm)[2]? with
    | none => simp [hseg]
    | some s =>
      cases hint : parseInt s with
      | none =>
        simp only [hseg, hint, Except.error.injEq, PyError.valueError.injEq]
        decide
      | some i => simp [hseg, hint]

/-- `frozenBelow` at position 0 checks only the head parameter. -/
theorem frozenBelow_zero (thr : Int) (p : Param) (ps : List Param) :
    frozenBelow thr (p :: ps) 0 = layerBelow thr p := by
  simp [frozenBelow]

/-- `frozenBelow` at a successor position splits off the head check. -/
theorem frozenBelow_succ (thr : Int) (p : Param) (ps : List Param) (i : Nat) :
    frozenBelow thr (p :: ps) (i + 1) = (layerBelow thr p && frozenBelow thr ps i) := by
  simp [frozenBelow]

/-- Unfolding equation of `freezeLoop` on the empty list. -/
theorem freezeLoop_nil (thr : Int) : freezeLoop thr [] = ([], none) := rfl

/-- Unfolding equation of `freezeLoop` on a non-empty list. -/
theorem freezeLoop_cons (thr : Int) (p : Param) (ps : List Param) :
    freezeLoop thr (p :: ps) =
      match layerOf p.name with
      | .error e => (p :: ps, some e)
      | .ok layer =>
        if thr ≤ layer then (p :: ps, none)
        else ({ p with requires_grad := false } :: (freezeLoop thr ps).1,
              (freezeLoop thr ps).2) := rfl

/-- Pointwise description of the parameter list after the freezing loop:
the parameter at position `i` is frozen exactly when every parameter up to
and including position `i` classifies below the threshold; otherwise it is
untouched (the loop broke or raised earlier). -/
theorem freezeLoop_get? (thr : Int) (ps : List Param) (i : Nat) :
    (freezeLoop thr ps).1[i]? =
      ps[i]?.map fun p =>
        if frozenBelow thr ps i then { p with requires_grad := false } else p := by
  induction ps generalizing i with
  | nil => simp [freezeLoop_nil]
  | cons p ps ih =>
    cases hL : layerOf p.name with
    | error e =>
      have hb : layerBelow thr p = false := by simp [layerBelow, hL]
      rw [freezeLoop_cons, hL]
      cases i with
      | zero => simp [frozenBelow_zero, hb]
      | succ i => simp [frozenBelow_succ, hb]
    | ok l =>
      by_cases hthr : thr ≤ l
      · have hb : layerBelow thr p = false := by
          simp only [layerBelow, hL, decide_eq_false_iff_not]
          omega
        rw [freezeLoop_cons, hL]
        cases i with
        | zero => simp [hthr, frozenBelow_zero, hb]
        | succ i => simp [hthr, frozenBelow_succ, hb]
      · have hb : layerBelow thr p = true := by
          simp only [layerBelow, hL, decide_eq_true_eq]
          omega
        rw [freezeLoop_cons, hL]
        cases i with
        | zero => simp [hthr, frozenBelow_zero, hb]
        | succ i => simp [hthr, frozenBelow_succ, hb, ih]

/-- The freezing loop raises the unrecognized-parameter error exactly when
some unrecognized name is visited with every earlier parameter classifying
strictly below the threshold. -/
theorem freezeLoop_unrecognized_iff (thr : Int) (ps : List Param) :
    (freezeLoop thr ps).2 = some (.valueError unrecognizedMsg) ↔
      ∃ i : Nat, ∃ p : Param, ps[i]? = some p ∧ unrecognizedName p.name = true ∧
        ∀ j : Nat, j < i → ∀ q : Param, ps[j]? = some q →
          ∃ l, layerOf q.name = .ok l ∧ l < thr := by
  induction ps with
  | nil => simp [freezeLoop_nil]
  | cons p ps ih =>
    cases hL : layerOf p.name with
    | error e =>
      rw [freezeLoop_cons, hL]
      constructor
      · intro h
        have he : e = .valueError unrecognizedMsg := by
          simpa using h
        refine ⟨0, p, by simp, ?_, ?_⟩
        · exact (layerOf_error_unrecognized_iff p.name).1 (he ▸ hL)
        · intro j hj
          omega
      · rintro ⟨i, q, hq, hu, hearlier⟩
        cases i with
        | zero =>
          have hqp : p = q := by simpa using hq
          rw [← hqp] at hu
          have := (layerOf_error_unrecognized_iff p.name).2 hu
          rw [hL] at this
          simpa using this
        | succ i =>
          obtain ⟨l, hl, -⟩ := hearlier 0 (Nat.succ_pos i) p (by simp)
          rw [hL] at hl
          exact absurd hl (by simp)
    | ok l =>
      by_cases hthr : thr ≤ l
      · rw [freezeLoop_cons, hL]
        simp only [if_pos hthr]
        constructor
        · intro h
          simp at h
        · rintro ⟨i, q, hq, hu, hearlier⟩
          cases i with
          | zero =>
            have hqp : p = q := by simpa using hq
            rw [← hqp] at hu
            have hrec := layerOf_ok_recognized p.name l hL
            rw [hu] at hrec
            simp at hrec
          | succ i =>
            obtain ⟨l', hl', hlt⟩ := hearlier 0 (Nat.succ_pos i) p (by simp)
            rw [hL] at hl'
            have : l = l' := by simpa using hl'
            omega
      · rw [freezeLoop_cons, hL]
        simp only [if_neg hthr]
        rw [ih]
        constructor
        · rintro ⟨i, q, hq, hu, hearlier⟩
          refine ⟨i + 1, q, by simpa using hq, hu, ?_⟩
          intro j hj r hr
          cases j with
          | zero =>
            have hrp : p = r := by simpa using hr
            rw [← hrp]
            exact ⟨l, hL, by omega⟩
          | succ j =>
            exact hearlier j (by omega) r (by simpa using hr)
        · rintro ⟨i, q, hq, hu, hearlier⟩
          cases i with
          | zero =>
            have hqp : p = q := by simpa using hq
            rw [← hqp] at hu
            have hrec := layerOf_ok_recognized p.name l hL
            rw [hu] at hrec
            simp at hrec
          | succ i =>
            refine ⟨i, q, by simpa using hq, hu, ?_⟩
            intro j hj r hr
            exact hearlier (j + 1) (by omega) r (by simpa using hr)

/-- The first dictionary containing a key supplies the value of
`dict(ChainMap(*args))` at that key. -/
theorem chainLookup_first (V : Type) (args : List (List (String × V))) (i : Nat)
    (d : List (String × V)) (k : String) (v : V)
    (hd : args[i]? = some d) (hv : dictGet d k = some v)
    (hearlier : ∀ j : Nat, j < i → ∀ e, args[j]? = some e → dictGet e k = none) :
    chainLookup args k = some v := by
  induction i generalizing args with
  | zero =>
    cases args with
    | nil => simp at hd
    | cons a as =>
      have had : a = d := by simpa using hd
      subst had
      simp [chainLookup, hv]
  | succ i ih =>
    cases args with
    | nil => simp at hd
    | cons a as =>
      have ha : dictGet a k = none := hearlier 0 (Nat.succ_pos i) a (by simp)
      simp only [chainLookup, ha]
      refine ih as (by simpa using hd) ?_
      intro j hj e he
      exact hearlier (j + 1) (by omega) e (by simpa using he)

/-- The binary exponent is determined by the bounds `2^e ≤ r < 2^(e+1)`. -/
theorem int_log2_eq_of_bounds (r : ℚ) (e : ℤ)
    (h1 : (2 : ℚ) ^ e ≤ r) (h2 : r < (2 : ℚ) ^ (e + 1)) : Int.log 2 r = e := by
  have h1' : ((2 : ℕ) : ℚ) ^ e ≤ r := by push_cast; exact h1
  have h2' : r < ((2 : ℕ) : ℚ) ^ (e + 1) := by push_cast; exact h2
  have hr : 0 < r := lt_of_lt_of_le (zpow_pos (by norm_num) e) h1
  have ha : e ≤ Int.log 2 r := (Int.zpow_le_iff_le_log (by norm_num) hr).1 h1'
  have hb : Int.log 2 r < e + 1 := (Int.lt_zpow_iff_log_lt (by norm_num) hr).1 h2'
  omega

/-- Rounding an integer plus a fraction below one half gives that integer. -/
theorem roundTiesEven_add_small (m : ℤ) (r : ℚ) (h0 : 0 ≤ r) (h1 : r < 1/2) :
    roundTiesEven ((m : ℚ) + r) = m := by
  have hf : ⌊(m : ℚ) + r⌋ = m := by
    rw [add_comm, Int.floor_add_int, Int.floor_eq_zero_iff.2 ⟨h0, by linarith⟩, zero_add]
  unfold roundTiesEven
  rw [hf]
  have hsub : (m : ℚ) + r - m = r := by ring
  rw [hsub, if_pos h1]

/-- Evaluation of `rnd53pos` from the binary exponent and a split of the
scaled significand into integer part plus a fraction below one half. -/
theorem rnd53pos_eval (q : ℚ) (e m : ℤ) (r : ℚ)
    (hlog : Int.log 2 q = e)
    (hsplit : q * 2 ^ (52 - e) = (m : ℚ) + r)
    (h0 : 0 ≤ r) (h1 : r < 1/2) :
    rnd53pos q = (m : ℚ) * 2 ^ (e - 52) := by
  unfold rnd53pos
  rw [hlog, hsplit, roundTiesEven_add_small m r h0 h1]

/-- `rnd53` on a positive rational delegates to `rnd53pos`. -/
theorem rnd53_of_pos (q : ℚ) (hq : 0 < q) : rnd53 q = rnd53pos q := by
  unfold rnd53
  rw [if_neg hq.ne', if_neg (not_lt.2 hq.le)]

/-- `62.5` is exactly representable in binary64. -/
theorem rnd53_125_div_2 : rnd53 ((125 : ℚ)/2) = 125/2 := by
  have hlog : Int.log 2 ((125 : ℚ)/2) = 5 :=
    int_log2_eq_of_bounds _ _ (by norm_num) (by norm_num)
  rw [rnd53_of_pos _ (by norm_num),
    rnd53pos_eval ((125 : ℚ)/2) 5 8796093022208000 0 hlog (by norm_num) le_rfl (by norm_num)]
  norm_num

/-- `3.0` is exactly representable in binary64. -/
theorem rnd53_three : rnd53 (3 : ℚ) = 3 := by
  have hlog : Int.log 2 (3 : ℚ) = 1 :=
    int_log2_eq_of_bounds _ _ (by norm_num) (by norm_num)
  rw [rnd53_of_pos _ (by norm_num),
    rnd53pos_eval (3 : ℚ) 1 6755399441055744 0 hlog (by norm_num) le_rfl (by norm_num)]
  norm_num

/-- `187.5` is exactly representable in binary64. -/
theorem rnd53_375_div_2 : rnd53 ((375 : ℚ)/2) = 375/2 := by
  have hlog : Int.log 2 ((375 : ℚ)/2) = 7 :=
    int_log2_eq_of_bounds _ _ (by norm_num) (by norm_num)
  rw [rnd53_of_pos _ (by norm_num),
    rnd53pos_eval ((375 : ℚ)/2) 7 6597069766656000 0 hlog (by norm_num) le_rfl (by norm_num)]
  norm_num

/-- `49.0` is exactly representable in binary64. -/
theorem rnd53_fortynine : rnd53 (49 : ℚ) = 49 := by
  have hlog : Int.log 2 (49 : ℚ) = 5 :=
    int_log2_eq_of_bounds _ _ (by norm_num) (by norm_num)
  rw [rnd53_of_pos _ (by norm_num),
    rnd53pos_eval (49 : ℚ) 5 6896136929411072 0 hlog (by norm_num) le_rfl (by norm_num)]
  norm_num

/-- `1/49` rounds to the binary64 value `5882252574524729 * 2^-58` (the
scaled significand `2^58/49` leaves remainder `23/49 < 1/2`). -/
theorem rnd53_one_div_49 :
    rnd53 ((1 : ℚ)/49) = 5882252574524729/288230376151711744 := by
  have hlog : Int.log 2 ((1 : ℚ)/49) = -6 :=
    int_log2_eq_of_bounds _ _ (by norm_num) (by norm_num)
  rw [rnd53_of_pos _ (by norm_num),
    rnd53pos_eval ((1 : ℚ)/49) (-6) 5882252574524729 (23/49) hlog (by norm_num)
      (by norm_num) (by norm_num)]
  norm_num

/-- The binary64 product `float(1/49) * 49.0` rounds to
`(2^53 - 1) * 2^-53`, the largest double strictly below `1.0` (the scaled
significand leaves remainder `9/32 < 1/2`, so the value rounds DOWN, not up
to `1.0`). -/
theorem rnd53_prod_counterex :
    rnd53 ((288230376151711721 : ℚ)/288230376151711744) =
      9007199254740991/9007199254740992 := by
  have hlog : Int.log 2 ((288230376151711721 : ℚ)/288230376151711744) = -1 :=
    int_log2_eq_of_bounds _ _ (by norm_num) (by norm_num)
  rw [rnd53_of_pos _ (by norm_num),
    rnd53pos_eval ((288230376151711721 : ℚ)/288230376151711744) (-1) 9007199254740991
      (9/32) hlog (by norm_num) (by norm_num) (by norm_num)]
  norm_num

/-! ### Claim theorems -/

/-- C1: for every pair of inputs and every call-time overrides mapping,
`HuggingFaceMetric.compute` never raises when the wrapped metric's
`compute` raises `AttributeError` or `ValueError`: in exactly those
delegate-failure cases it returns the single-entry mapping
`{metric_name: -1.0}`, and when the delegate instead returns a result
mapping, `compute` returns it unchanged. -/
theorem c1_compute_soft_failure {I V : Type} (metricName : String)
    (delegate : Option I → Option I → List (String × V) → DelegateOutcome)
    (compute_kwargs kwargs merged : List (String × V)) (y_true y_pred : Option I)
    (hmerge : mergeKwargs compute_kwargs kwargs = .ok merged) :
    ((delegate y_true y_pred merged = .raise .attributeError ∨
        ∃ m, delegate y_true y_pred merged = .raise (.valueError m)) →
      HuggingFaceMetric.compute metricName delegate compute_kwargs y_true y_pred kwargs =
        .ok [(metricName, .num (-1))])
    ∧ ∀ d, delegate y_true y_pred merged = .ret (.dict d) →
        HuggingFaceMetric.compute metricName delegate compute_kwargs y_true y_pred kwargs =
          .ok d := by
  constructor
  · rintro (h | ⟨m, h⟩) <;>
      simp [HuggingFaceMetric.compute, hmerge, h, handleDelegateOutcome]
  · intro d h
    simp [HuggingFaceMetric.compute, hmerge, h, handleDelegateOutcome]

/-- C1 witness: a delegate raising `ValueError` on empty option mappings
makes `compute` return the sentinel mapping rather than raise. -/
theorem c1_compute_soft_failure_witness :
    HuggingFaceMetric.compute "accuracy" demoDelegateRaise [] none none [] =
      .ok [("accuracy", .num (-1))] :=
  (c1_compute_soft_failure "accuracy" demoDelegateRaise [] [] [] none none rfl).1
    (Or.inr ⟨"mismatch in the number of predicted samples", rfl⟩)

/-- C5 counterexample: when the fixed compute options and the call-time
overrides share the key `normalize`, the claimed merge does not succeed:
`compute` raises `TypeError` (Python rejects a keyword supplied twice) and
the wrapped metric — here one that would happily return `{accuracy: 1}` —
is never invoked. -/
theorem c5_merge_counterexample :
    HuggingFaceMetric.compute "accuracy" demoDelegateDict
        [("normalize", ())] none none [("normalize", ())] = .error .typeError := rfl

/-- C5 (amended): when the fixed and call-time option mappings are
key-disjoint and avoid the reserved keywords `references`/`predictions`,
`compute` invokes the wrapped metric exactly once, with the two mappings
concatenated (fixed options first, call-time overrides last); when the two
mappings share a key, `compute` raises `TypeError` without invoking the
wrapped metric at all. -/
theorem c5_merge_semantics {I V : Type} (metricName : String)
    (compute_kwargs kwargs : List (String × V)) (y_true y_pred : Option I) :
    ((∀ p ∈ compute_kwargs,
        p.1 ≠ "references" ∧ p.1 ≠ "predictions" ∧ dictGet kwargs p.1 = none) →
      (∀ p ∈ kwargs, p.1 ≠ "references" ∧ p.1 ≠ "predictions") →
      mergeKwargs compute_kwargs kwargs = .ok (compute_kwargs ++ kwargs) ∧
      ∀ delegate : Option I → Option I → List (String × V) → DelegateOutcome,
        HuggingFaceMetric.compute metricName delegate compute_kwargs y_true y_pred kwargs =
          handleDelegateOutcome metricName
            (delegate y_true y_pred (compute_kwargs ++ kwargs)))
    ∧ ∀ k : String, (dictGet compute_kwargs k).isSome → (dictGet kwargs k).isSome →
        ∀ delegate : Option I → Option I → List (String × V) → DelegateOutcome,
          HuggingFaceMetric.compute metricName delegate compute_kwargs y_true y_pred kwargs =
            .error .typeError := by
  constructor
  · intro hdisj hres
    have h1 : (compute_kwargs.any fun p =>
        p.1 == "references" || p.1 == "predictions" || (dictGet kwargs p.1).isSome) = false := by
      rw [List.any_eq_false]
      intro p hp
      obtain ⟨hr, hpd, hnone⟩ := hdisj p hp
      simp [hr, hpd, hnone]
    have h2 : (kwargs.any fun p => p.1 == "references" || p.1 == "predictions") = false := by
      rw [List.any_eq_false]
      intro p hp
      obtain ⟨hr, hpd⟩ := hres p hp
      simp [hr, hpd]
    have hm : mergeKwargs compute_kwargs kwargs = .ok (compute_kwargs ++ kwargs) := by
      simp [mergeKwargs, h1, h2]
    exact ⟨hm, fun delegate => by simp [HuggingFaceMetric.compute, hm]⟩
  · intro k hck hkw delegate
    have h1 : (compute_kwargs.any fun p =>
        p.1 == "references" || p.1 == "predictions" || (dictGet kwargs p.1).isSome) = true := by
      rw [List.any_eq_true]
      obtain ⟨p, hp, hpk⟩ := (dictGet_isSome_iff compute_kwargs k).1 hck
      exact ⟨p, hp, by simp [hpk, hkw]⟩
    simp [HuggingFaceMetric.compute, mergeKwargs, h1]

/-- C5 witness: disjoint fixed and call-time options are concatenated and
handed to the wrapped metric in a single invocation. -/
theorem c5_merge_semantics_witness :
    mergeKwargs [("average", ())] [("normalize", ())] =
      .ok [("average", ()), ("normalize", ())] ∧
    HuggingFaceMetric.compute "f1" demoDelegateDict
        [("average", ())] none none [("normalize", ())] =
      handleDelegateOutcome "f1"
        (demoDelegateDict none none [("average", ()), ("normalize", ())]) := by
  have h := (c5_merge_semantics (I := Unit) "f1" [("average", ())] [("normalize", ())]
    none none).1 (by decide) (by decide)
  exact ⟨h.1, h.2 demoDelegateDict⟩

/-- C6: supplying any non-zero `process_id` at construction fails the
`HuggingFaceMetric` process check with the invalid-process `ValueError`;
supplying `process_id = 0`, or no `process_id` at all, passes it. -/
theorem c6_process_id_check (pid : Int) :
    (pid ≠ 0 →
      HuggingFaceMetric.init_process_check [("process_id", pid)] =
        .error (.valueError invalidProcessMsg))
    ∧ HuggingFaceMetric.init_process_check [("process_id", 0)] = .ok ()
    ∧ ∀ init_kwargs : List (String × Int),
        dictGet init_kwargs "process_id" = none →
        HuggingFaceMetric.init_process_check init_kwargs = .ok () := by
  refine ⟨fun h => ?_, rfl, fun kw hkw => ?_⟩
  · simp [HuggingFaceMetric.init_process_check, initKwargsGetProcessId, dictGet, h]
  · simp [HuggingFaceMetric.init_process_check, initKwargsGetProcessId, hkw]

/-- C6 witness: process id 5 is rejected; an empty kwargs mapping is
accepted. -/
theorem c6_process_id_check_witness :
    (5 : Int) ≠ 0 ∧
    HuggingFaceMetric.init_process_check [("process_id", 5)] =
      .error (.valueError invalidProcessMsg) ∧
    HuggingFaceMetric.init_process_check [] = .ok () :=
  ⟨by decide, (c6_process_id_check 5).1 (by decide), (c6_process_id_check 5).2.2 [] rfl⟩

/-- C9: saving a checkpoint and then loading it on a fresh instance
restores exactly the ordered label-name list that was saved, whatever the
checkpoint already contained. -/
theorem c9_checkpoint_roundtrip (target_names : List String)
    (checkpoint : List (String × CkptVal)) :
    HuggingFaceLightningModule.on_load_checkpoint
        (HuggingFaceLightningModule.on_save_checkpoint target_names checkpoint) =
      .ok (.names target_names) := by
  unfold HuggingFaceLightningModule.on_load_checkpoint
    HuggingFaceLightningModule.on_save_checkpoint
  rw [dictGet_dictSet_self]

/-- C2: for `finetune_last_n_layers = n ≥ 1`, the parameter at traversal
position `i` has its gradient disabled exactly when every parameter up to
and including position `i` classifies to a layer index strictly below
`totalLayers - n` (equivalently: its own index is below the threshold and
no earlier-visited parameter reached it); once one parameter reaches the
threshold, all parameters from it onward are left untouched. Moreover
`freeze_transformer(totalLayers)` (with `totalLayers ≥ 1` and every
parameter classifying to a non-negative layer) leaves every parameter
untouched, disabling 0 gradients. -/
theorem c2_freeze_cutoff (L n : Int) (hn : 1 ≤ n) (ps : List Param) :
    (∀ i : Nat, ∀ p : Param, ps[i]? = some p →
      (HuggingFaceLightningModule.freeze_transformer L n ps).1[i]? =
        some (if frozenBelow (L - n) ps i then { p with requires_grad := false } else p))
    ∧ (1 ≤ L → (∀ p ∈ ps, ∃ l, layerOf p.name = .ok l ∧ 0 ≤ l) →
        HuggingFaceLightningModule.freeze_transformer L L ps = (ps, none)) := by
  constructor
  · intro i p hp
    have hne : n ≠ 0 := by omega
    unfold HuggingFaceLightningModule.freeze_transformer
    rw [if_neg hne, freezeLoop_get?, hp]
    rfl
  · intro hL hcls
    have hne : L ≠ 0 := by omega
    unfold HuggingFaceLightningModule.freeze_transformer
    rw [if_neg hne]
    cases ps with
    | nil => rw [freezeLoop_nil]
    | cons p ps =>
      obtain ⟨l, hl, h0⟩ := hcls p (List.mem_cons_self p ps)
      rw [freezeLoop_cons, hl]
      simp only [sub_self]
      rw [if_pos h0]

/-- C2 witness: with 4 hidden layers and `finetune_last_n_layers = 2`, the
parameter of encoder layer 0 (position 1, below the threshold 2 with all
earlier parameters below it too) is frozen. -/
theorem c2_freeze_cutoff_witness :
    (HuggingFaceLightningModule.freeze_transformer 4 2 demoParams).1[1]? =
      some (if frozenBelow (4 - 2) demoParams 1 then
          { (⟨"encoder.layer.0.attention.self.query.weight", true⟩ : Param) with
              requires_grad := false }
        else ⟨"encoder.layer.0.attention.self.query.weight", true⟩) :=
  (c2_freeze_cutoff 4 2 (by decide) demoParams).1 1
    ⟨"encoder.layer.0.attention.self.query.weight", true⟩ (by decide)

/-- C7 counterexample: `freeze_transformer(1)` on a model whose traversal
visits a `pooler` parameter (layer index `sys.maxsize`, at or above any
threshold) before the unrecognized name `classifier.weight` raises no
error at all — the `break` preempts the unrecognized-name check — refuting
the claim that an unrecognized parameter name raises whenever one exists. -/
theorem c7_unrecognized_counterexample :
    (HuggingFaceLightningModule.freeze_transformer 12 1
        [⟨"pooler.dense.weight", true⟩, ⟨"classifier.weight", true⟩]).2 = none
    ∧ unrecognizedName "classifier.weight" = true :=
  ⟨by decide, by decide⟩

/-- C7 (amended): `freeze_transformer(0)` never raises (no classification
happens on that path); for `n ≠ 0`, the call raises the
unrecognized-parameter `ValueError` if and only if some parameter with
unrecognized name stem is visited while every earlier-visited parameter
classifies to a layer index strictly below `totalLayers - n` (so the
traversal actually reaches it). -/
theorem c7_unrecognized_error (L n : Int) (ps : List Param) :
    ((HuggingFaceLightningModule.freeze_transformer L 0 ps).2 = none)
    ∧ (n ≠ 0 →
      ((HuggingFaceLightningModule.freeze_transformer L n ps).2 =
          some (.valueError unrecognizedMsg) ↔
        ∃ i : Nat, ∃ p : Param, ps[i]? = some p ∧ unrecognizedName p.name = true ∧
          ∀ j : Nat, j < i → ∀ q : Param, ps[j]? = some q →
            ∃ l, layerOf q.name = .ok l ∧ l < L - n)) := by
  constructor
  · simp [HuggingFaceLightningModule.freeze_transformer]
  · intro hn
    unfold HuggingFaceLightningModule.freeze_transformer
    rw [if_neg hn]
    exact freezeLoop_unrecognized_iff (L - n) ps

/-- C7 witness: an unrecognized first parameter makes `freeze_transformer`
raise the unrecognized-parameter error when `n = 1`. -/
theorem c7_unrecognized_error_witness :
    (1 : Int) ≠ 0 ∧
    (HuggingFaceLightningModule.freeze_transformer 12 1
        [⟨"classifier.weight", true⟩]).2 = some (.valueError unrecognizedMsg) := by
  refine ⟨by decide, ?_⟩
  refine ((c7_unrecognized_error 12 1 [⟨"classifier.weight", true⟩]).2 (by decide)).2 ?_
  refine ⟨0, ⟨"classifier.weight", true⟩, by decide, by decide, ?_⟩
  intro j hj q hq
  exact absurd hj (Nat.not_lt_zero j)

/-- C10: `freeze_transformer` never enables a gradient: a parameter whose
`requires_grad` flag was `false` before the call still has it `false`
after, and a parameter whose flag is `true` after the call already had it
`true` before — for every argument, including the error paths. -/
theorem c10_freeze_monotone (L n : Int) (ps : List Param) (i : Nat) (p q : Param)
    (hp : ps[i]? = some p)
    (hq : (HuggingFaceLightningModule.freeze_transformer L n ps).1[i]? = some q) :
    (p.requires_grad = false → q.requires_grad = false)
    ∧ (q.requires_grad = true → p.requires_grad = true) := by
  unfold HuggingFaceLightningModule.freeze_transformer at hq
  by_cases h0 : n = 0
  · rw [if_pos h0, List.getElem?_map, hp] at hq
    simp only [Option.map_some'] at hq
    have hq' := Option.some.inj hq
    rw [← hq']
    exact ⟨fun _ => rfl, fun h => absurd h (by simp)⟩
  · rw [if_neg h0, freezeLoop_get?, hp] at hq
    simp only [Option.map_some'] at hq
    have hq' := Option.some.inj hq
    by_cases hb : frozenBelow (L - n) ps i = true
    · rw [if_pos hb] at hq'
      rw [← hq']
      exact ⟨fun _ => rfl, fun h => absurd h (by simp)⟩
    · rw [if_neg hb] at hq'
      rw [← hq']
      exact ⟨fun h => h, fun h => h⟩

/-- C10 witness: a parameter already lacking gradients keeps lacking them
through a freezing call. -/
theorem c10_freeze_monotone_witness :
    (⟨"embeddings.word_embeddings.weight", false⟩ : Param).requires_grad = false :=
  (c10_freeze_monotone 4 2 [⟨"embeddings.word_embeddings.weight", false⟩] 0
    ⟨"embeddings.word_embeddings.weight", false⟩
    ⟨"embeddings.word_embeddings.weight", false⟩ (by decide) (by decide)).1 rfl

/-- C4 counterexample: `forward` with the two positional dict arguments
`{input_ids: 1}` and `{input_ids: 2}` delegates a merged mapping whose
value at `input_ids` is `1`, the EARLIER argument's value (`ChainMap`
searches left to right), refuting the claim that the later argument wins
the conflict. -/
theorem c4_forward_counterexample :
    HuggingFaceLightningModule.forward (fun f => f "input_ids")
        [[("input_ids", 1)], [("input_ids", 2)]] [] = .ok (some 1)
    ∧ (1 : ℕ) ≠ 2 :=
  ⟨rfl, by decide⟩

/-- C4 (amended): with two or more positional dict-like arguments and no
keyword arguments, `forward` merges them into a single mapping before
delegating to the model, and for a key present in several arguments the
value from the EARLIEST argument containing it wins the conflict. -/
theorem c4_forward_merge {V M : Type} (model : (String → Option V) → M)
    (args : List (List (String × V))) (i : Nat) (d : List (String × V))
    (k : String) (v : V)
    (hd : args[i]? = some d) (hv : dictGet d k = some v)
    (hearlier : ∀ j : Nat, j < i → ∀ e, args[j]? = some e → dictGet e k = none) :
    HuggingFaceLightningModule.forward model args [] = .ok (model (chainLookup args))
    ∧ chainLookup args k = some v := by
  have hlook := chainLookup_first V args i d k v hd hv hearlier
  refine ⟨?_, hlook⟩
  cases args with
  | nil => simp at hd
  | cons a as => rfl

/-- C4 witness: a key present only in the second of two positional
arguments is found in the merged mapping. -/
theorem c4_forward_merge_witness :
    HuggingFaceLightningModule.forward (fun f => f "attention_mask")
        [[("input_ids", 1)], [("attention_mask", 2)]] [] = .ok (some 2)
    ∧ chainLookup [[("input_ids", (1 : ℕ))], [("attention_mask", 2)]] "attention_mask" =
        some 2 := by
  have he : ∀ j : Nat, j < 1 → ∀ e,
      ([[("input_ids", (1 : ℕ))], [("attention_mask", 2)]])[j]? = some e →
      dictGet e "attention_mask" = none := by
    intro j hj e hejj
    have hj0 : j = 0 := by omega
    subst hj0
    have hee : [("input_ids", (1 : ℕ))] = e := by simpa using hejj
    rw [← hee]
    decide
  have h := c4_forward_merge (fun f => f "attention_mask")
    [[("input_ids", (1 : ℕ))], [("attention_mask", 2)]] 1 [("attention_mask", 2)]
    "attention_mask" 2 (by decide) (by decide) he
  refine ⟨?_, h.2⟩
  rw [h.1]
  exact congrArg Except.ok h.2

/-- C3 counterexample: for dataset size 1, train batch size 49, 1 device,
accumulation 1 and max epochs 49, the code's IEEE-754 evaluation
`int((1/49) * 49.0)` gives 0 — `(1/49) * 49.0` rounds to the double just
below `1.0` — while the claimed floor formula gives
`floor((1/49) * 49) = 1`, so `total_steps` is not `floor(...)` in general. -/
theorem c3_float_counterexample :
    HuggingFaceLightningModule.setup_total_steps 1 49 1 1 49 = 0
    ∧ ⌊(1 : ℚ) / ((49 : ℚ) * ((max 1 1 : ℕ) : ℚ) * (1 : ℚ)) * (49 : ℚ)⌋ = 1
    ∧ (0 : ℤ) ≠ 1 := by
  refine ⟨?_, by norm_num, by norm_num⟩
  simp only [HuggingFaceLightningModule.setup_total_steps, fpDiv, fpMul]
  norm_num [rnd53_one_div_49, rnd53_fortynine, rnd53_prod_counterex, pyInt]

/-- C3 (amended): with scheduling requested in the fit stage,
`total_steps` is computed exactly once as
`int((datasetSize / ab) * float(maxEpochs))` in IEEE-754 double precision,
with `ab = trainBatchSize * max(1, deviceCount) * gradAccumSteps`; whenever
the three float conversions/operations involved are exact (no rounding),
this equals `floor((datasetSize / ab) * maxEpochs)`, and in the concrete
scenario (dataset 1000, batch 8, 1 device, accumulation 2, 3 epochs) every
intermediate value is exactly representable and `total_steps = 187`. -/
theorem c3_total_steps :
    (∀ datasetSize train_batch_size num_devices accumulate_grad_batches max_epochs ab : ℕ,
      ab = train_batch_size * max 1 num_devices * accumulate_grad_batches →
      0 < ab →
      fpDiv (datasetSize : ℚ) (ab : ℚ) = (datasetSize : ℚ) / (ab : ℚ) →
      rnd53 (max_epochs : ℚ) = (max_epochs : ℚ) →
      fpMul ((datasetSize : ℚ) / (ab : ℚ)) (max_epochs : ℚ) =
        (datasetSize : ℚ) / (ab : ℚ) * (max_epochs : ℚ) →
      HuggingFaceLightningModule.setup_total_steps datasetSize train_batch_size
          num_devices accumulate_grad_batches max_epochs =
        ⌊(datasetSize : ℚ) /
            ((train_batch_size : ℚ) * ((max 1 num_devices : ℕ) : ℚ) *
              (accumulate_grad_batches : ℚ)) * (max_epochs : ℚ)⌋)
    ∧ HuggingFaceLightningModule.setup_total_steps 1000 8 1 2 3 = 187 := by
  constructor
  · intro ds tbs nd ga me ab hab hpos hdiv hme hmul
    subst hab
    simp only [HuggingFaceLightningModule.setup_total_steps]
    rw [hdiv, hme, hmul]
    simp only [pyInt]
    rw [if_neg]
    · congr 1
      push_cast
      ring
    · rw [not_lt]
      positivity
  · simp only [HuggingFaceLightningModule.setup_total_steps, fpDiv, fpMul]
    norm_num [rnd53_125_div_2, rnd53_three, rnd53_375_div_2, pyInt]

/-- C3 witness: the concrete scenario instantiates the exact-arithmetic
case of the amended claim (62.5, 3.0 and 187.5 are exact doubles). -/
theorem c3_total_steps_witness :
    (0 : ℕ) < 16 ∧
    HuggingFaceLightningModule.setup_total_steps 1000 8 1 2 3 =
      ⌊(1000 : ℚ) / ((8 : ℚ) * ((max 1 1 : ℕ) : ℚ) * (2 : ℚ)) * (3 : ℚ)⌋ := by
  refine ⟨by norm_num, ?_⟩
  refine c3_total_steps.1 1000 8 1 2 3 16 (by norm_num) (by norm_num) ?_ ?_ ?_
  · simp only [fpDiv]
    norm_num [rnd53_125_div_2]
  · norm_num [rnd53_three]
  · simp only [fpMul]
    norm_num [rnd53_375_div_2]

/-- C8: for every configured class count, the default metric collection
contains micro- and macro-averaged multiclass F1/Precision/Recall always,
their binary variants exactly when the class count is at most 2, a
multiclass Accuracy always and a binary Accuracy exactly when the class
count is at most 2; above 2 classes every entry is multiclass. -/
theorem c8_default_metrics (n : Int) :
    ((("f1_binary", (⟨.F1Score, .binary, n, none⟩ : MetricEntry)) ∈
        LightningModule.get_default_metrics n) ↔ n ≤ 2)
    ∧ ("f1_micro", (⟨.F1Score, .multiclass, n, some "micro"⟩ : MetricEntry)) ∈
        LightningModule.get_default_metrics n
    ∧ ("f1_macro", (⟨.F1Score, .multiclass, n, some "macro"⟩ : MetricEntry)) ∈
        LightningModule.get_default_metrics n
    ∧ ((("precision_binary", (⟨.Precision, .binary, n, none⟩ : MetricEntry)) ∈
        LightningModule.get_default_metrics n) ↔ n ≤ 2)
    ∧ ("precision_micro", (⟨.Precision, .multiclass, n, some "micro"⟩ : MetricEntry)) ∈
        LightningModule.get_default_metrics n
    ∧ ("precision_macro", (⟨.Precision, .multiclass, n, some "macro"⟩ : MetricEntry)) ∈
        LightningModule.get_default_metrics n
    ∧ ((("recall_binary", (⟨.Recall, .binary, n, none⟩ : MetricEntry)) ∈
        LightningModule.get_default_metrics n) ↔ n ≤ 2)
    ∧ ("recall_micro", (⟨.Recall, .multiclass, n, some "micro"⟩ : MetricEntry)) ∈
        LightningModule.get_default_metrics n
    ∧ ("recall_macro", (⟨.Recall, .multiclass, n, some "macro"⟩ : MetricEntry)) ∈
        LightningModule.get_default_metrics n
    ∧ ("acc", (⟨.Accuracy, .multiclass, n, none⟩ : MetricEntry)) ∈
        LightningModule.get_default_metrics n
    ∧ ((("acc_binary", (⟨.Accuracy, .binary, n, none⟩ : MetricEntry)) ∈
        LightningModule.get_default_metrics n) ↔ n ≤ 2)
    ∧ (2 < n → ∀ e ∈ LightningModule.get_default_metrics n, e.2.task = .multiclass) := by
  by_cases h : n ≤ 2
  · simp only [LightningModule.get_default_metrics, if_pos h]
    refine ⟨by simp [h], by simp, by simp, by simp [h], by simp, by simp, by simp [h],
      by simp, by simp, by simp, by simp [h], ?_⟩
    intro hn
    omega
  · simp only [LightningModule.get_default_metrics, if_neg h]
    refine ⟨by simp [h], by simp, by simp, by simp [h], by simp, by simp, by simp [h],
      by simp, by simp, by simp, by simp [h], ?_⟩
    intro hn e he
    simp at he
    rcases he with h1 | h1 | h1 | h1 | h1 | h1 | h1 <;> simp [h1]

/-- C8 witness: with 3 classes every default metric is multiclass; in
particular the micro-averaged F1 entry is. -/
theorem c8_default_metrics_witness :
    (2 : Int) < 3 ∧
    (("f1_micro", (⟨.F1Score, .multiclass, 3, some "micro"⟩ : MetricEntry))).2.task =
      TaskKind.multiclass :=
  ⟨by decide,
    (c8_default_metrics 3).2.2.2.2.2.2.2.2.2.2.2 (by decide)
      ("f1_micro", ⟨.F1Score, .multiclass, 3, some "micro"⟩) (by decide)⟩

end Embeddings
